import Mathlib

/-!
# Verification of the Nexus conversation session manager

A shallow embedding of the `useChat` hook (the conversation session
manager of the Nexus chat client) and of the `ChatInput` submit guard,
with theorems checking the specification's claims about them.

Modelling conventions:

* JavaScript strings are Lean `String`s; `new Date()` timestamps are `Nat`
  parameters supplied by the caller; the randomly generated ids
  (`generateId()`) are `String` parameters supplied by the caller.
* A JavaScript value that may be `undefined` (such as `data.response` read
  off a parsed JSON body that lacks the field) is an `Option String`,
  `none` standing for `undefined`.  Message contents therefore have type
  `Option String`: a user message always carries `some content`, while the
  assistant message built on the success path carries whatever
  `data.response` held, possibly `none`.
* React's functional state updates (`setX (prev => ...)`) are applied to
  the state current at the time the update runs.  The `useCallback`
  closure over `conversations` and `activeConversationId` sees the state
  from the render that created the callback; in the sequential model this
  is the state at the start of the call, and it does NOT see updates made
  inside the same call.  `sendMessage` is split accordingly into a
  synchronous first phase (conversation resolution, optimistic append,
  `isTyping := true`, request construction) and a reconciliation phase run
  against the store state current when the fetch settles, so that
  operations interleaved during the flight can be expressed.
-/

/-- The `role` union type `'user' | 'assistant'` of `Message`. -/
inductive Role where
  | user : Role
  | assistant : Role
deriving DecidableEq, Repr

/-- A chat message (`Message` in `@/types/chat`): `id` from `generateId()`,
`content` an `Option String` because the success path can store the JS
`undefined` read from a body lacking the `response` field, `role`, and the
`new Date()` creation `timestamp`. -/
structure Message where
  id : String
  content : Option String
  role : Role
  timestamp : Nat
deriving DecidableEq, Repr

/-- A conversation (`Conversation` in `@/types/chat`). -/
structure Conversation where
  id : String
  title : String
  messages : List Message
  createdAt : Nat
  updatedAt : Nat
deriving DecidableEq, Repr

/-- The hook's session state: the `conversations` list,
`activeConversationId` (`string | null`), and the `isTyping` flag
(the spec's `pending`). -/
structure ChatState where
  conversations : List Conversation
  activeConversationId : Option String
  isTyping : Bool
deriving DecidableEq, Repr

/-- JavaScript falsiness of a `string | null` value: `!x` is true for
`null` and for the empty string.  This is the test
`if (!conversationId)` performs in `sendMessage`. -/
def jsFalsy : Option String → Bool
  | none => true
  | some s => s = ""

/-- `content.slice(0, 30) + (content.length > 30 ? '...' : '')`, the title
computed when `sendMessage` creates a conversation implicitly. -/
def truncateTitle (content : String) : String :=
  String.mk (content.data.take 30) ++ (if content.length > 30 then "..." else "")

/-- `createNewConversation`: prepends a fresh conversation titled
`"New Chat"` with empty messages and activates it.  `newId` stands for the
`generateId()` result and `now` for `new Date()`. -/
def createNewConversation (s : ChatState) (newId : String) (now : Nat) : ChatState :=
  { s with
    conversations := ⟨newId, "New Chat", [], now, now⟩ :: s.conversations
    activeConversationId := some newId }

/-- `deleteConversation(id)`: filters the conversation list by
`c.id !== id` and clears `activeConversationId` when it strictly equalled
`id`. -/
def deleteConversation (s : ChatState) (id : String) : ChatState :=
  { s with
    conversations := s.conversations.filter (fun c => c.id ≠ id)
    activeConversationId :=
      if s.activeConversationId = some id then none else s.activeConversationId }

/-- `setActiveConversationId`, exposed raw to the UI (`onSelect`); no
validation that the id exists. -/
def setActiveConversationId (s : ChatState) (id : Option String) : ChatState :=
  { s with activeConversationId := id }

/-- The functional update `prev => prev.map(c => c.id === cid ?
{...c, messages: [...c.messages, m], updatedAt: now} : c)` shared by the
optimistic append, the success reconciliation and the failure
reconciliation. -/
def appendToConversation (convs : List Conversation) (cid : String) (m : Message)
    (now : Nat) : List Conversation :=
  convs.map (fun c =>
    if c.id = cid then { c with messages := c.messages ++ [m], updatedAt := now } else c)

/-- The fixed failure notice appended on the catch path. -/
def failureNotice : Option String :=
  some "Failed to get a response. Is the backend running?"

/-- The outcome of the `fetch` round trip as `sendMessage` observes it:
the promise rejects (network failure); the response arrives with
`response.ok` false (non-2xx status); `response.ok` is true but
`response.json()` rejects (unparseable body); or a parsed JSON body whose
`response` field is `some` string, or `none` when the field is absent or
not a usable string. -/
inductive FetchOutcome where
  | networkError : FetchOutcome
  | httpError : Nat → FetchOutcome
  | okInvalidJson : FetchOutcome
  | okJson : Option String → FetchOutcome
deriving DecidableEq, Repr

/-- What the synchronous part of `sendMessage` produces: the state visible
once the fetch has been issued (`state`), the conversation id the call
resolved (`cid`), and the request body's `messages` array (`payload`),
each entry already reduced to its `{role, content}` pair. -/
structure SendStart where
  state : ChatState
  cid : String
  payload : List (Role × Option String)
deriving DecidableEq, Repr

/-- The synchronous part of `sendMessage(content)`, up to and including
construction of the request body: resolve the conversation
(`if (!conversationId)` creates one with the truncated title and activates
it), append the optimistic user message, set `isTyping`, and build
`messagesForBackend` from the closure's `conversations` snapshot
(`s.conversations`, the state at call start) concatenated with the new
user message, mapped to `{role, content}`.  `newConvId` and `userMsgId`
stand for the two `generateId()` calls, `now` for `new Date()`. -/
def sendMessageStart (s : ChatState) (content : String) (newConvId userMsgId : String)
    (now : Nat) : SendStart :=
  let created := jsFalsy s.activeConversationId
  let cid := if created then newConvId else s.activeConversationId.getD ""
  let convs1 :=
    if created then
      ⟨newConvId, truncateTitle content, [], now, now⟩ :: s.conversations
    else s.conversations
  let userMessage : Message := ⟨userMsgId, some content, Role.user, now⟩
  let convs2 := appendToConversation convs1 cid userMessage now
  let snapshot := s.conversations.find? (fun c => c.id = cid)
  let payload :=
    ((snapshot.map Conversation.messages).getD [] ++ [userMessage]).map
      (fun m => (m.role, m.content))
  { state :=
      { conversations := convs2
        activeConversationId := if created then some newConvId else s.activeConversationId
        isTyping := true }
    cid := cid
    payload := payload }

/-- The continuation of `sendMessage` once the fetch settles, run against
the store state `t` current at that moment: on `okJson r` append an
assistant message whose content is `r` (the success path, even when `r` is
`none`); on every other outcome the `catch` block appends the fixed
failure notice; `finally` clears `isTyping`.  `aiMsgId` stands for the
`generateId()` call and `now2` for `new Date()` at resolution time.
`responseMessage` is the assistant message that run appends. -/
def responseMessage (outcome : FetchOutcome) (aiMsgId : String) (now2 : Nat) : Message :=
  match outcome with
  | FetchOutcome.okJson r => ⟨aiMsgId, r, Role.assistant, now2⟩
  | _ => ⟨aiMsgId, failureNotice, Role.assistant, now2⟩

/-- The reconciliation itself: append `responseMessage` to the target
conversation in the resolution-time store `t`, and clear `isTyping`. -/
def reconcile (t : ChatState) (cid : String) (outcome : FetchOutcome) (aiMsgId : String)
    (now2 : Nat) : ChatState :=
  { conversations :=
      appendToConversation t.conversations cid (responseMessage outcome aiMsgId now2) now2
    activeConversationId := t.activeConversationId
    isTyping := false }

/-- A full `sendMessage(content)` run with no interleaved mutation: the
reconciliation applies to the state the synchronous phase left. -/
def sendMessage (s : ChatState) (content : String) (newConvId userMsgId aiMsgId : String)
    (now now2 : Nat) (outcome : FetchOutcome) : ChatState :=
  let p := sendMessageStart s content newConvId userMsgId now
  reconcile p.state p.cid outcome aiMsgId now2

/-- JavaScript's `String.prototype.trim()`: drop the whitespace from both
ends of the string. -/
def jsTrim (s : String) : String :=
  String.mk (((s.data.dropWhile Char.isWhitespace).reverse.dropWhile
    Char.isWhitespace).reverse)

/-- `ChatInput.handleSubmit`: invokes `onSend(input.trim())` only when
`input.trim()` is truthy (non-empty) and the input is not disabled;
returns the content passed to `onSend`, or `none` when nothing is sent. -/
def handleSubmit (input : String) (disabled : Bool) : Option String :=
  if jsTrim input ≠ "" ∧ disabled = false then some (jsTrim input) else none

/-! ## Helper lemmas about `appendToConversation` -/

/-- Appending to an id that no conversation carries is the identity: the
`map` rewrites nothing. -/
theorem append_skips_absent (convs : List Conversation) (cid : String) (m : Message)
    (now : Nat) (h : cid ∉ convs.map Conversation.id) :
    appendToConversation convs cid m now = convs := by
  induction convs with
  | nil => rfl
  | cons c cs ih =>
    simp only [List.map_cons, List.mem_cons, not_or] at h
    show (if c.id = cid then _ else c) :: appendToConversation cs cid m now = c :: cs
    rw [if_neg (fun he => h.1 he.symm), ih h.2]

/-- Every conversation of the input list survives `appendToConversation`
with its id intact and its old messages a prefix of the new ones. -/
theorem append_keeps_each (convs : List Conversation) (cid : String) (m : Message)
    (now : Nat) (c : Conversation) (hc : c ∈ convs) :
    ∃ c' ∈ appendToConversation convs cid m now,
      c'.id = c.id ∧ c.messages <+: c'.messages := by
  refine ⟨if c.id = cid then { c with messages := c.messages ++ [m], updatedAt := now }
          else c, List.mem_map_of_mem _ hc, ?_, ?_⟩
  · by_cases h : c.id = cid <;> simp [h]
  · by_cases h : c.id = cid <;> simp [h, List.prefix_append]

/-- A conversation whose id differs from the target is untouched by
`appendToConversation`. -/
theorem append_keeps_other (convs : List Conversation) (cid : String) (m : Message)
    (now : Nat) (c : Conversation) (hc : c ∈ convs) (hne : c.id ≠ cid) :
    c ∈ appendToConversation convs cid m now := by
  unfold appendToConversation
  rw [List.mem_map]
  exact ⟨c, hc, if_neg hne⟩

/-- `find?` by the target id commutes with `appendToConversation`: the
first match after the rewrite is the first match before it, with the
message appended. -/
theorem append_find (convs : List Conversation) (cid : String) (m : Message) (now : Nat) :
    (appendToConversation convs cid m now).find? (fun c => c.id = cid) =
      (convs.find? (fun c => c.id = cid)).map
        (fun c => { c with messages := c.messages ++ [m], updatedAt := now }) := by
  induction convs with
  | nil => rfl
  | cons c cs ih =>
    by_cases h : c.id = cid
    · simp [appendToConversation, List.find?_cons, h]
    · simpa [appendToConversation, List.find?_cons, h] using ih

/-! ## Claim theorems -/

/-- C4: on every invocation of `sendMessage`, `isTyping` (the spec's
`pending` flag) is true in the state the synchronous phase leaves — i.e.
before the remote call can settle — and is false again once the call
settles, whatever the outcome (success, HTTP error, network failure,
malformed body) and whatever state the store is in at resolution time; no
execution terminates with it still true. -/
theorem pending_round_trip (s t : ChatState) (content cid newConvId userMsgId aiMsgId : String)
    (now now2 : Nat) (o : FetchOutcome) :
    (sendMessageStart s content newConvId userMsgId now).state.isTyping = true ∧
    (sendMessage s content newConvId userMsgId aiMsgId now now2 o).isTyping = false ∧
    (reconcile t cid o aiMsgId now2).isTyping = false := by
  refine ⟨rfl, ?_, ?_⟩ <;> cases o <;> rfl

/-- C8: `deleteConversation i` keeps a conversation exactly when its id
differs from `i` (so it removes precisely the matching conversation, and
is a no-op on the list when no conversation matches), clears
`activeConversationId` exactly when it equalled `i`, and touches nothing
else. -/
theorem delete_exact (s : ChatState) (i : String) :
    ((deleteConversation s i).activeConversationId =
        if s.activeConversationId = some i then none else s.activeConversationId) ∧
    (i ∉ s.conversations.map Conversation.id →
        (deleteConversation s i).conversations = s.conversations) ∧
    (∀ c ∈ s.conversations, c.id ≠ i → c ∈ (deleteConversation s i).conversations) ∧
    (∀ c ∈ (deleteConversation s i).conversations, c ∈ s.conversations ∧ c.id ≠ i) ∧
    (deleteConversation s i).isTyping = s.isTyping := by
  refine ⟨rfl, ?_, ?_, ?_, rfl⟩
  · intro h
    unfold deleteConversation
    simp only [List.filter_eq_self]
    intro c hc
    simp only [decide_eq_true_eq]
    intro he
    exact h (he ▸ List.mem_map_of_mem Conversation.id hc)
  · intro c hc hne
    unfold deleteConversation
    simp only [List.mem_filter, decide_eq_true_eq]
    exact ⟨hc, hne⟩
  · intro c hc
    unfold deleteConversation at hc
    simp only [List.mem_filter, decide_eq_true_eq] at hc
    exact hc

/-- C6: when `sendMessage` creates the conversation implicitly (no active
conversation), the new conversation — prepended, hence the head of the
list — has title equal to the content itself when it is at most 30
characters long, and to its first 30 characters followed by `"..."`
otherwise. -/
theorem implicit_title_truncation (s : ChatState) (content newConvId userMsgId : String)
    (now : Nat) (h : s.activeConversationId = none) :
    ((sendMessageStart s content newConvId userMsgId now).state.conversations.head?).map
        Conversation.title =
      some (if content.length ≤ 30 then content
            else String.mk (content.data.take 30) ++ "...") := by
  unfold sendMessageStart appendToConversation
  simp only [h, jsFalsy, if_pos, List.map_cons, List.head?_cons, Option.map_some]
  by_cases hlen : content.length ≤ 30
  · have hd : content.data.length ≤ 30 := hlen
    simp only [truncateTitle, if_pos, hlen, if_neg (by omega : ¬content.length > 30),
      List.take_of_length_le hd]
    simp
  · simp only [truncateTitle, if_pos, hlen, if_neg hlen,
      if_pos (by omega : content.length > 30)]
    simp

/-- C6 witness: a 5-character message keeps its title verbatim. -/
theorem implicit_title_truncation_witness :
    ((sendMessageStart ⟨[], none, false⟩ "hello" "n" "u" 0).state.conversations.head?).map
        Conversation.title =
      some (if "hello".length ≤ 30 then "hello"
            else String.mk ("hello".data.take 30) ++ "...") :=
  implicit_title_truncation ⟨[], none, false⟩ "hello" "n" "u" 0 rfl

/-- A conversation with the history `[u1, a1, u2]`, used as a concrete
fixture by witnesses. -/
def histConv : Conversation :=
  ⟨"c1", "T",
    [⟨"m1", some "u1", Role.user, 0⟩, ⟨"m2", some "a1", Role.assistant, 1⟩,
     ⟨"m3", some "u2", Role.user, 2⟩], 0, 2⟩

/-- A session whose active conversation is `histConv`. -/
def histState : ChatState := ⟨[histConv], some "c1", false⟩

/-- C1: with a conversation active (a truthy id resolving to conversation
`c`), the request body `sendMessage` builds is exactly `c`'s message list
followed by the just-appended user message, each reduced to its
`{role, content}` pair in conversation order (ids and timestamps are
dropped by the reduction); and that list coincides with the full message
history the resolved conversation holds after the optimistic append, so
the snapshot the request uses reflects the state at request-construction
time. -/
theorem payload_is_full_history (s : ChatState) (content cid : String) (c : Conversation)
    (newConvId userMsgId : String) (now : Nat)
    (hactive : s.activeConversationId = some cid) (hne : cid ≠ "")
    (hfind : s.conversations.find? (fun cv => cv.id = cid) = some c) :
    (sendMessageStart s content newConvId userMsgId now).payload =
      (c.messages ++ [(⟨userMsgId, some content, Role.user, now⟩ : Message)]).map
        (fun m => (m.role, m.content)) ∧
    (sendMessageStart s content newConvId userMsgId now).state.conversations.find?
        (fun cv => cv.id = cid) =
      some { c with
             messages := c.messages ++ [(⟨userMsgId, some content, Role.user, now⟩ : Message)]
             updatedAt := now } := by
  have hf2 : jsFalsy (some cid) = false := by
    simp [jsFalsy, hne]
  constructor
  · simp [sendMessageStart, hactive, hf2, hfind]
  · simp [sendMessageStart, hactive, hf2, append_find, hfind]

/-- C1 witness: sending `"u3"` into the `[u1, a1, u2]` fixture. -/
theorem payload_is_full_history_witness :
    (sendMessageStart histState "u3" "n" "u" 3).payload =
      (histConv.messages ++ [(⟨"u", some "u3", Role.user, 3⟩ : Message)]).map
        (fun m => (m.role, m.content)) ∧
    (sendMessageStart histState "u3" "n" "u" 3).state.conversations.find?
        (fun cv => cv.id = "c1") =
      some { histConv with
             messages := histConv.messages ++ [(⟨"u", some "u3", Role.user, 3⟩ : Message)]
             updatedAt := 3 } :=
  payload_is_full_history histState "u3" "c1" histConv "n" "u" 3 rfl (by decide) (by decide)

/-- C2 counterexample: invoked with the empty string (empty after
trimming) and no active conversation, `sendMessage` is not a no-op: it
creates a conversation and constructs a request whose payload carries the
empty user message, rather than declining to act. -/
theorem empty_send_not_noop :
    (sendMessage ⟨[], none, false⟩ "" "n" "u" "a" 0 1
        FetchOutcome.networkError).conversations.length = 1 ∧
    (sendMessageStart ⟨[], none, false⟩ "" "n" "u" 0).payload = [(Role.user, some "")] := by
  exact ⟨rfl, rfl⟩

/-- C2 amended: the empty-after-trim guard lives in the calling UI, not
the controller: `ChatInput.handleSubmit` invokes `onSend` for no input
that is empty after trimming, while `sendMessage` itself performs no
emptiness check and processes such content like any other message —
with no active conversation it creates a conversation and issues the
remote call. -/
theorem empty_guard_in_ui (input : String) (disabled : Bool) (h : jsTrim input = "") :
    handleSubmit input disabled = none ∧
    (sendMessage ⟨[], none, false⟩ (jsTrim input) "n" "u" "a" 0 1
        FetchOutcome.networkError).conversations.length = 1 := by
  refine ⟨?_, ?_⟩
  · unfold handleSubmit
    rw [if_neg]
    simp [h]
  · rw [h]
    exact rfl

/-- C2 amended witness: a single blank, with submission enabled. -/
theorem empty_guard_in_ui_witness :
    handleSubmit " " false = none ∧
    (sendMessage ⟨[], none, false⟩ (jsTrim " ") "n" "u" "a" 0 1
        FetchOutcome.networkError).conversations.length = 1 :=
  empty_guard_in_ui " " false (by decide)

/-- C3 counterexample: a 2xx response whose parsed body merely lacks the
`response` field takes the success path, so the conversation receives an
assistant message whose content is the JS `undefined` (`none`), not the
fixed failure notice the claim requires for that case. -/
theorem missing_field_not_notice :
    ((sendMessage ⟨[⟨"c", "T", [], 0, 0⟩], some "c", false⟩ "hi" "n" "u" "a" 0 1
        (FetchOutcome.okJson none)).conversations.map
      (fun cv => cv.messages.map Message.content)) = [[some "hi", none]] ∧
    (none : Option String) ≠ failureNotice := by
  exact ⟨rfl, by decide⟩

/-- C3 amended: a network failure, a non-2xx status, and a response body
that fails to parse are handled uniformly: each lands in the `catch`
block, which appends exactly one assistant message carrying the same
fixed failure notice to the target conversation (and the reconciliation
is a total function: `sendMessage` resolves without throwing).  A
parseable body lacking the `response` field is NOT part of this set: it
takes the success path. -/
theorem failure_paths_uniform (t : ChatState) (cid aiMsgId : String) (now2 : Nat)
    (o : FetchOutcome)
    (h : o = FetchOutcome.networkError ∨ (∃ st, o = FetchOutcome.httpError st) ∨
      o = FetchOutcome.okInvalidJson) :
    reconcile t cid o aiMsgId now2 =
      { conversations := appendToConversation t.conversations cid
          ⟨aiMsgId, failureNotice, Role.assistant, now2⟩ now2
        activeConversationId := t.activeConversationId
        isTyping := false } := by
  rcases h with h | ⟨st, h⟩ | h <;> subst h <;> rfl

/-- C3 amended witness: a network failure against a one-conversation
store appends the failure notice. -/
theorem failure_paths_uniform_witness :
    reconcile ⟨[⟨"c", "T", [], 0, 0⟩], some "c", false⟩ "c" FetchOutcome.networkError "a" 3 =
      { conversations := appendToConversation [⟨"c", "T", [], 0, 0⟩] "c"
          ⟨"a", failureNotice, Role.assistant, 3⟩ 3
        activeConversationId := some "c"
        isTyping := false } :=
  failure_paths_uniform ⟨[⟨"c", "T", [], 0, 0⟩], some "c", false⟩ "c" "a" 3
    FetchOutcome.networkError (Or.inl rfl)

/-- The conversation list a full `sendMessage` run produces: the two
conditional appends (user message, then response message), applied over
the possibly-extended initial list. -/
theorem send_result_shape (s : ChatState) (content newConvId userMsgId aiMsgId : String)
    (now now2 : Nat) (o : FetchOutcome) :
    (sendMessage s content newConvId userMsgId aiMsgId now now2 o).conversations =
      appendToConversation
        (appendToConversation
          (if jsFalsy s.activeConversationId then
            (⟨newConvId, truncateTitle content, [], now, now⟩ : Conversation) :: s.conversations
          else s.conversations)
          (sendMessageStart s content newConvId userMsgId now).cid
          ⟨userMsgId, some content, Role.user, now⟩ now)
        (sendMessageStart s content newConvId userMsgId now).cid
        (responseMessage o aiMsgId now2) now2 := by
  by_cases hj : jsFalsy s.activeConversationId <;>
    simp [sendMessage, reconcile, sendMessageStart, hj]

/-- C5: if the target conversation id no longer exists in the store when
the remote call resolves (it was deleted in flight), the reconciliation
leaves the whole conversation list unchanged — the reply is attached to no
conversation — and, being a total function, raises no error; in
particular, deleting the target after the send and then reconciling
leaves the store exactly as the deletion left it.  When the id still
exists, every conversation with a different id is untouched. -/
theorem reconcile_deletion_safe (t : ChatState) (cid aiMsgId : String) (o : FetchOutcome)
    (now2 : Nat) :
    (cid ∉ t.conversations.map Conversation.id →
      (reconcile t cid o aiMsgId now2).conversations = t.conversations) ∧
    ((reconcile (deleteConversation t cid) cid o aiMsgId now2).conversations =
      (deleteConversation t cid).conversations) ∧
    (∀ c ∈ t.conversations, c.id ≠ cid →
      c ∈ (reconcile t cid o aiMsgId now2).conversations) := by
  refine ⟨?_, ?_, ?_⟩
  · intro h
    exact append_skips_absent _ _ _ _ h
  · apply append_skips_absent
    intro hmem
    rw [List.mem_map] at hmem
    obtain ⟨c, hc, hid⟩ := hmem
    simp only [deleteConversation] at hc
    rw [List.mem_filter] at hc
    exact (of_decide_eq_true hc.2) hid
  · intro c hc hne
    exact append_keeps_other _ _ _ _ c hc hne

/-- C5 witness: a store that no longer holds the target id `"a"` at
resolution time is returned unchanged by the reconciliation. -/
theorem reconcile_deletion_safe_witness :
    (reconcile ⟨[⟨"b", "T", [], 0, 0⟩], none, true⟩ "a" FetchOutcome.networkError "m" 5).conversations
      = [⟨"b", "T", [], 0, 0⟩] :=
  (reconcile_deletion_safe ⟨[⟨"b", "T", [], 0, 0⟩], none, true⟩ "a" "m"
    FetchOutcome.networkError 5).1 (by decide)

/-- C7: across every operation of the session, existing message lists only
grow at the tail: a `sendMessage` run maps each prior conversation to one
with the same id whose messages extend the prior ones (`<+:` — so nothing
is removed, reordered or edited in place), `createNewConversation` and
`setActiveConversationId` keep every prior conversation untouched, and
`deleteConversation` only ever drops whole conversations, leaving the
survivors exactly as they were. -/
theorem messages_append_only (s : ChatState)
    (content newConvId userMsgId aiMsgId did : String) (oid : Option String)
    (now now2 : Nat) (o : FetchOutcome) :
    (∀ c ∈ s.conversations,
      ∃ c' ∈ (sendMessage s content newConvId userMsgId aiMsgId now now2 o).conversations,
        c'.id = c.id ∧ c.messages <+: c'.messages) ∧
    (∀ c ∈ s.conversations, c ∈ (createNewConversation s newConvId now).conversations) ∧
    (∀ c ∈ (deleteConversation s did).conversations, c ∈ s.conversations) ∧
    (setActiveConversationId s oid).conversations = s.conversations := by
  refine ⟨?_, ?_, ?_, rfl⟩
  · intro c hc
    rw [send_result_shape]
    have hmem1 : c ∈ (if jsFalsy s.activeConversationId then
        (⟨newConvId, truncateTitle content, [], now, now⟩ : Conversation) :: s.conversations
        else s.conversations) := by
      by_cases hj : jsFalsy s.activeConversationId <;> simp [hj, hc]
    obtain ⟨c1, hm1, hid1, hp1⟩ := append_keeps_each _ _ _ _ c hmem1
    obtain ⟨c2, hm2, hid2, hp2⟩ := append_keeps_each _ _ _ _ c1 hm1
    exact ⟨c2, hm2, by rw [hid2, hid1], hp1.trans hp2⟩
  · intro c hc
    exact List.mem_cons_of_mem _ hc
  · intro c hc
    simp only [deleteConversation] at hc
    rw [List.mem_filter] at hc
    exact hc.1

/-- C7 witness: the `[u1, a1, u2]` fixture survives a successful
`sendMessage` with its prior messages a prefix of the new list. -/
theorem messages_append_only_witness :
    ∃ c' ∈ (sendMessage histState "u3" "n" "u" "a" 3 4
        (FetchOutcome.okJson (some "r"))).conversations,
      c'.id = histConv.id ∧ histConv.messages <+: c'.messages :=
  (messages_append_only histState "u3" "n" "u" "a" "d" none 3 4
    (FetchOutcome.okJson (some "r"))).1 histConv (by decide)

/-- C9 counterexample: with `activeConversationId` the empty string — a
non-null reference matching no conversation — `sendMessage` does NOT
leave the store unchanged: `if (!conversationId)` treats `""` as falsy,
so the implicit-creation branch runs and the store grows from one
conversation to two. -/
theorem stale_empty_active_creates :
    ((⟨[⟨"x", "T", [], 0, 0⟩], some "", false⟩ : ChatState)).activeConversationId ≠ none ∧
    "" ∉ ([(⟨"x", "T", [], 0, 0⟩ : Conversation)].map Conversation.id) ∧
    (sendMessage ⟨[⟨"x", "T", [], 0, 0⟩], some "", false⟩ "hi" "nid" "u" "a" 1 2
        FetchOutcome.networkError).conversations.length = 2 := by
  exact ⟨by decide, by decide, rfl⟩

/-- C9 amended: if `activeConversationId` is a NON-EMPTY (JS-truthy)
string matching no conversation in the store, then `sendMessage` creates
no conversation, both appends fall through leaving every conversation
unchanged, the remote call is still issued with the single new
`{role: user, content}` entry as payload, and nothing throws (the run is
a total function).  When the stale id is the empty string, JS falsiness
sends the run down the implicit-creation branch instead. -/
theorem stale_truthy_active_noop (s : ChatState)
    (content cid newConvId userMsgId aiMsgId : String) (now now2 : Nat) (o : FetchOutcome)
    (hactive : s.activeConversationId = some cid) (hne : cid ≠ "")
    (hstale : cid ∉ s.conversations.map Conversation.id) :
    (sendMessage s content newConvId userMsgId aiMsgId now now2 o).conversations =
      s.conversations ∧
    (sendMessage s content newConvId userMsgId aiMsgId now now2 o).activeConversationId =
      some cid ∧
    (sendMessageStart s content newConvId userMsgId now).payload =
      [(Role.user, some content)] := by
  have hf2 : jsFalsy (some cid) = false := by
    simp [jsFalsy, hne]
  have hfind : s.conversations.find? (fun cv => cv.id = cid) = none := by
    rw [List.find?_eq_none]
    intro c hcmem
    simp only [decide_eq_true_eq]
    intro he
    exact hstale (he ▸ List.mem_map_of_mem Conversation.id hcmem)
  refine ⟨?_, ?_, ?_⟩
  · rw [send_result_shape]
    have hcid : (sendMessageStart s content newConvId userMsgId now).cid = cid := by
      simp [sendMessageStart, hactive, hf2]
    rw [hcid]
    simp only [hactive, hf2, Bool.false_eq_true, if_false]
    rw [append_skips_absent _ _ _ _ hstale, append_skips_absent _ _ _ _ hstale]
  · simp [sendMessage, reconcile, sendMessageStart, hactive, hf2]
  · simp [sendMessageStart, hactive, hf2, hfind]

/-- C9 amended witness: the stale truthy id `"zzz"` over a store holding
only conversation `"x"`. -/
theorem stale_truthy_active_noop_witness :
    (sendMessage ⟨[⟨"x", "T", [], 0, 0⟩], some "zzz", false⟩ "hi" "n" "u" "a" 1 2
        FetchOutcome.networkError).conversations = [⟨"x", "T", [], 0, 0⟩] ∧
    (sendMessage ⟨[⟨"x", "T", [], 0, 0⟩], some "zzz", false⟩ "hi" "n" "u" "a" 1 2
        FetchOutcome.networkError).activeConversationId = some "zzz" ∧
    (sendMessageStart ⟨[⟨"x", "T", [], 0, 0⟩], some "zzz", false⟩ "hi" "n" "u" 1).payload =
      [(Role.user, some "hi")] :=
  stale_truthy_active_noop ⟨[⟨"x", "T", [], 0, 0⟩], some "zzz", false⟩ "hi" "zzz" "n" "u" "a"
    1 2 FetchOutcome.networkError rfl (by decide) (by decide)

/-- C10: a full `sendMessage` run acts on the conversation list pointwise
(via a single per-conversation function `g`, so the relative order of the
pre-existing conversations is preserved), prepending at most one
implicitly created conversation; `g` never changes a conversation's `id`,
`title` or `createdAt` (titles are fixed at creation and never rewritten
by later messages), and leaves every conversation other than the resolved
target entirely unchanged — so only the target's `messages` and
`updatedAt` can differ. -/
theorem send_frame (s : ChatState) (content newConvId userMsgId aiMsgId : String)
    (now now2 : Nat) (o : FetchOutcome) :
    ∃ g : Conversation → Conversation,
      (∀ c, (g c).id = c.id ∧ (g c).title = c.title ∧ (g c).createdAt = c.createdAt) ∧
      (∀ c, c.id ≠ (sendMessageStart s content newConvId userMsgId now).cid → g c = c) ∧
      (sendMessage s content newConvId userMsgId aiMsgId now now2 o).conversations =
        (if jsFalsy s.activeConversationId then
          [g ⟨newConvId, truncateTitle content, [], now, now⟩] else []) ++
        s.conversations.map g := by
  refine ⟨fun c =>
    (fun c2 => if c2.id = (sendMessageStart s content newConvId userMsgId now).cid then
        { c2 with messages := c2.messages ++ [responseMessage o aiMsgId now2]
                  updatedAt := now2 } else c2)
      (if c.id = (sendMessageStart s content newConvId userMsgId now).cid then
        { c with messages := c.messages ++ [(⟨userMsgId, some content, Role.user, now⟩ : Message)]
                 updatedAt := now } else c), ?_, ?_, ?_⟩
  · intro c
    dsimp only
    split_ifs <;> simp_all
  · intro c h
    dsimp only
    simp only [if_neg h]
  · rw [send_result_shape]
    unfold appendToConversation
    rw [List.map_map]
    by_cases hj : jsFalsy s.activeConversationId <;> simp [hj, Function.comp]
